import Mathlib

/-!
# Verification of `game-of-life` (`src/main.c`)

A shallow embedding of the simulation engine of the C program
`game-of-life`: the `world` data model, construction (`world_init`),
deep copy (`world_copy`), comparison (`world_compare`), emptiness
(`world_is_empty`), bounds checking (`world_is_in_bounds`), the cell
rule (`cell_update`), the generation step (`world_advance`), the
randomizer (`world_randomize`) and the text renderer (`world_draw`).

Machine integers are modelled explicitly: `size_t` values are natural
numbers reduced modulo `2 ^ 64`, C `int` values are integers obtained by
two's-complement interpretation modulo `2 ^ 32`.  The C program stores a
grid as `cell **cells` indexed `cells[y][x]`; we model it as a list of
rows (`List (List Cell)`), reading out-of-range indices through `getD`
with a dummy cell, which mirrors the fact that the C code only ever
indexes in range.

The in-place update order of `world_advance` (row-major, writing each
cell's new state into the same grid that later cells read their
neighbours from) is embedded faithfully via a left fold (`sweep`).
-/

/-! ## Definitions -/

/-- The C `cell` struct: an alive flag and the stored coordinates. -/
structure Cell where
  alive : Bool
  x : Nat
  y : Nat
deriving DecidableEq, Repr

/-- Value read when indexing outside the allocated grid (never happens in
the C program's executions; used only to make `cellAt` total). -/
def dummyCell : Cell := { alive := false, x := 0, y := 0 }

/-- The C `world` struct. `cells` is indexed `cells[y][x]` (rows first). -/
structure World where
  cells : List (List Cell)
  width : Nat
  height : Nat
  iteration : Nat
deriving DecidableEq, Repr

/-- `MIN_SURVIVAL` from `main.c`. -/
def MIN_SURVIVAL : Nat := 1

/-- `MAX_SURVIVAL` from `main.c`. -/
def MAX_SURVIVAL : Nat := 4

/-- `SPAWN` from `main.c`. -/
def SPAWN : Nat := 3

/-- `2 ^ 64`, the modulus of `size_t` arithmetic. -/
def SIZE_MOD : Nat := 18446744073709551616

/-- `2 ^ 32`, the modulus of C `int` arithmetic. -/
def INT_MOD : Nat := 4294967296

/-- Conversion of a C `int` value to `size_t`: reduction modulo `2 ^ 64`
(negative values wrap around). -/
def intToSize (z : Int) : Nat := (z % (18446744073709551616 : Int)).toNat

/-- Two's-complement interpretation of a `size_t` value as a C `int`
(conversion is implementation-defined in C; this models the universal
wrap-around behaviour). -/
def toInt32 (n : Nat) : Int :=
  let m := n % INT_MOD
  if m < 2147483648 then (m : Int) else (m : Int) - (INT_MOD : Int)

/-- Read `w->cells[y][x]` (total: out-of-range reads give `dummyCell`). -/
def cellAt (w : World) (x y : Nat) : Cell :=
  (w.cells.getD y []).getD x dummyCell

/-- Well-formedness of the allocated grid: exactly `height` rows of
`width` cells each, as established by `world_init`. -/
def wf (w : World) : Prop :=
  w.cells.length = w.height ∧ ∀ y < w.height, (w.cells.getD y []).length = w.width

/-- `world_init` from `main.c`: a `width × height` grid, every cell dead,
every cell storing its own coordinates, iteration 0. -/
def world_init (width height : Nat) : World :=
  { cells := (List.range height).map (fun y =>
      (List.range width).map (fun x => { alive := false, x := x, y := y })),
    width := width, height := height, iteration := 0 }

/-- The assignment `w->cells[y][x].alive = b` (a no-op when the indices
are out of range, which never occurs in the C program). -/
def setAlive (w : World) (x y : Nat) (b : Bool) : World :=
  let row := w.cells.getD y []
  { w with cells := w.cells.set y (row.set x { row.getD x dummyCell with alive := b }) }

/-- The row-major in-place double loop shared by `world_copy`,
`world_randomize` and `world_advance`: for `y = 0..height-1` and
`x = 0..width-1` assign `w->cells[y][x].alive = f w x y`, where `f`
receives the *current* (partially updated) grid, exactly as the C loops
do. -/
def sweep (w0 : World) (f : World → Nat → Nat → Bool) : World :=
  (List.range w0.height).foldl
    (fun wa y => (List.range w0.width).foldl
      (fun wb x => setAlive wb x y (f wb x y)) wa) w0

/-- `world_copy` from `main.c`: allocate a fresh grid with `world_init`
and copy each cell's alive flag from the source (the iteration counter is
*not* copied; `world_init` leaves it 0). -/
def world_copy (w : World) : World :=
  sweep (world_init w.width w.height) (fun _ x y => (cellAt w x y).alive)

/-- `world_randomize` from `main.c`, with the stream of `rand()` results
passed explicitly: call number `y * width + x` decides cell `(x, y)` via
`rand() % 2`. -/
def world_randomize (w : World) (rnd : Nat → Nat) : World :=
  sweep w (fun _ x y => rnd (y * w.width + x) % 2 == 1)

/-- `world_is_in_bounds` from `main.c`: the parameters are `size_t`, so
the checks `0 <= x` are vacuously true and the real tests are
`x < width` and `y < height`. -/
def world_is_in_bounds (w : World) (x y : Nat) : Bool :=
  let x_in_bounds := decide (0 ≤ x) && decide (x < w.width)
  let y_in_bounds := decide (0 ≤ y) && decide (y < w.height)
  x_in_bounds && y_in_bounds

/-- The computation `int neighbour_x = c->x + x_offset` of `cell_update`
followed by the conversion back to `size_t` at the `world_is_in_bounds`
call and the array index: the `int` offset is converted to `size_t`,
added modulo `2 ^ 64`, truncated to `int`, and widened to `size_t`
again. -/
def neighbourCoord (n : Nat) (offset : Int) : Nat :=
  intToSize (toInt32 ((n + intToSize offset) % SIZE_MOD))

/-- The offset range `-1..1` of the two neighbour loops in `cell_update`. -/
def OFFSETS : List Int := [-1, 0, 1]

/-- `cell_update` from `main.c`: count the live in-bounds neighbours
around the cell's *stored* coordinates in the world `w` it is handed
(in `world_advance` that is the partially updated live grid), then apply
the survival/spawn rule to the cell's current alive flag. Returns the new
alive flag (which the C code also writes into the cell). -/
def cell_update (w : World) (c : Cell) : Bool :=
  let alive_neighbours :=
    OFFSETS.foldl (fun acc y_offset =>
      OFFSETS.foldl (fun acc x_offset =>
        let nx := neighbourCoord c.x x_offset
        let ny := neighbourCoord c.y y_offset
        let is_neighbour_current_cell := x_offset == 0 && y_offset == 0
        if !is_neighbour_current_cell && world_is_in_bounds w nx ny then
          acc + (if (cellAt w nx ny).alive then 1 else 0)
        else
          acc) acc) 0
  if c.alive then
    decide (MIN_SURVIVAL < alive_neighbours) && decide (alive_neighbours < MAX_SURVIVAL)
  else
    alive_neighbours == SPAWN

/-- `world_compare` from `main.c`: `false` (C `0`) when the two worlds
have the same dimensions and identical alive flags, `true` (C `1`)
otherwise. The iteration counters are never examined. -/
def world_compare (w1 w2 : World) : Bool :=
  if w1.width != w2.width || w1.height != w2.height then
    true
  else
    !((List.range w1.height).all fun y =>
      (List.range w1.width).all fun x =>
        (cellAt w1 x y).alive == (cellAt w2 x y).alive)

/-- `world_is_empty` from `main.c`: `true` iff no cell is alive. -/
def world_is_empty (w : World) : Bool :=
  (List.range w.height).all fun y =>
    (List.range w.width).all fun x => !(cellAt w x y).alive

/-- `world_advance` from `main.c`: snapshot the grid with `world_copy`,
then for every cell in row-major order recompute its alive flag with
`cell_update` **against the live grid being mutated** (the C code passes
`w`, not `prev`, to `cell_update`), compare the result with the snapshot,
bump the iteration counter iff something changed, and report whether the
simulation is still running. -/
def world_advance (w : World) : World × Bool :=
  let prev := world_copy w
  let updated := sweep w (fun wa x y => cell_update wa (cellAt wa x y))
  let is_same_as_prev := !(world_compare updated prev)
  let final := { updated with
    iteration := updated.iteration + (if is_same_as_prev then 0 else 1) }
  (final, !(is_same_as_prev || world_is_empty final))

/-- `world_draw` from `main.c`, as the string written to `stdout`: the
cursor-reset escape, one character per cell (`'o'` alive, space dead)
with a newline after each row, then a vertical tab (`"\v"` in the
`printf` format string) and the status line. Pure: the grid is only
read. -/
def world_draw (w : World) : String :=
  "\x1b[H" ++
  String.join ((List.range w.height).map (fun y =>
    String.mk ((List.range w.width).map (fun x =>
      if (cellAt w x y).alive then 'o' else ' ')) ++ "\n")) ++
  "\x0B" ++ "width: " ++ toString w.width ++ ", height: " ++ toString w.height ++
  ", iteration: " ++ toString w.iteration ++ "\n"

/-- A test grid: `world_init W H` with the alive flags then written
cellwise from `f` (every grid the running program manipulates arises this
way: allocation by `world_init` followed by alive-flag writes). -/
def mkWorld (W H : Nat) (f : Nat → Nat → Bool) : World :=
  sweep (world_init W H) (fun _ u v => f u v)

/-- One summand of the specification's neighbour count: `1` when the
position offset by `(dx, dy)` from `(x, y)` lies inside
`[0, width) × [0, height)`, is not the cell itself, and holds a live
cell. -/
def nbInd (w : World) (x y : Nat) (dx dy : Int) : Nat :=
  if (¬(dx = 0 ∧ dy = 0)) ∧ 0 ≤ (x : Int) + dx ∧ (x : Int) + dx < (w.width : Int) ∧
     0 ≤ (y : Int) + dy ∧ (y : Int) + dy < (w.height : Int) ∧
     (cellAt w ((x : Int) + dx).toNat ((y : Int) + dy).toNat).alive = true
  then 1 else 0

/-- The alive-neighbour count in the specification's terms: the number of
live cells among the at most 8 in-bounds neighbours of `(x, y)` — the
cell itself is never counted, out-of-bounds positions contribute nothing,
and there is no wraparound. -/
def neighborCountSpec (w : World) (x y : Nat) : Nat :=
  nbInd w x y (-1) (-1) + nbInd w x y 0 (-1) + nbInd w x y 1 (-1) +
  nbInd w x y (-1) 0 + nbInd w x y 1 0 +
  nbInd w x y (-1) 1 + nbInd w x y 0 1 + nbInd w x y 1 1

/-- A grid that is exactly a 2-by-2 block of live cells in columns
`a, a + 1` and rows `b, b + 1`, all other cells dead. -/
def blockWorld (W H a b : Nat) : World :=
  mkWorld W H (fun x y => decide ((x = a ∨ x = a + 1) ∧ (y = b ∨ y = b + 1)))

/-- A 5-by-5 grid holding a horizontal three-cell blinker on its middle
row: live cells `(1,2)`, `(2,2)`, `(3,2)`, one empty row/column of margin
on every side. -/
def blinkerH : World := mkWorld 5 5 (fun x y => decide (y = 2 ∧ (x = 1 ∨ x = 2 ∨ x = 3)))

/-- The corresponding vertical three-cell blinker: live cells `(2,1)`,
`(2,2)`, `(2,3)`. -/
def blinkerV : World := mkWorld 5 5 (fun x y => decide (x = 2 ∧ (y = 1 ∨ y = 2 ∨ y = 3)))

/-- The row block of the render output as the specification words it:
`height` rows of `width` characters each, a live cell drawn as an o and a
dead cell as a space, a newline ending each row. -/
def drawRowsSpec (w : World) : String :=
  String.join ((List.range w.height).map (fun y =>
    String.mk ((List.range w.width).map (fun x =>
      if (cellAt w x y).alive then 'o' else ' ')) ++ "\n"))

/-- The status line of the render output as the specification words it. -/
def statusLineSpec (w : World) : String :=
  "width: " ++ toString w.width ++ ", height: " ++ toString w.height ++
  ", iteration: " ++ toString w.iteration ++ "\n"

/-- The full render output the claim describes: after the cursor-reset
control sequence, the rows, then a blank separator line (as a string,
an extra newline making an empty line), then the status line. -/
def claimedDraw (w : World) : String :=
  "\x1b[H" ++ drawRowsSpec w ++ "\n" ++ statusLineSpec w

/-- The stored-coordinate invariant: the cell held at row `y`, column `x`
of the grid stores exactly the coordinates `(x, y)`. -/
def coordsOK (w : World) : Prop :=
  ∀ y < w.height, ∀ x < w.width, (cellAt w x y).x = x ∧ (cellAt w x y).y = y

/-! ## Lemmas and claim theorems -/

lemma cellAt_init (W H x y : Nat) :
    cellAt (world_init W H) x y =
      if x < W ∧ y < H then { alive := false, x := x, y := y } else dummyCell := by
  unfold cellAt world_init
  by_cases hy : y < H
  · by_cases hx : x < W
    · simp [List.getD_eq_getElem?_getD, List.getElem?_map, List.getElem?_range hy,
            List.getElem?_range hx, hx, hy]
    · have hnone : (List.range W)[x]? = none := List.getElem?_eq_none (by simpa using hx)
      simp [List.getD_eq_getElem?_getD, List.getElem?_map, List.getElem?_range hy, hnone, hx]
  · have hnone : (List.range H)[y]? = none := List.getElem?_eq_none (by simpa using hy)
    simp [List.getD_eq_getElem?_getD, List.getElem?_map, hnone, hy]

lemma wf_init (W H : Nat) : wf (world_init W H) := by
  constructor
  · simp [world_init]
  · intro y hy
    simp only [world_init] at hy ⊢
    simp [List.getD_eq_getElem?_getD, List.getElem?_map, List.getElem?_range hy]

lemma set_getD_self (l : List α) (n : Nat) (d : α) (h : n < l.length) :
    l.set n (l.getD n d) = l := by
  apply List.ext_getElem?
  intro m
  by_cases hnm : n = m
  · subst hnm
    simp [List.getElem?_set, h, List.getD_eq_getElem?_getD, List.getElem?_eq_getElem h]
  · rw [List.getElem?_set_ne hnm]

lemma setAlive_width (w : World) (x y : Nat) (b : Bool) :
    (setAlive w x y b).width = w.width := rfl

lemma setAlive_height (w : World) (x y : Nat) (b : Bool) :
    (setAlive w x y b).height = w.height := rfl

lemma setAlive_iteration (w : World) (x y : Nat) (b : Bool) :
    (setAlive w x y b).iteration = w.iteration := rfl

lemma setAlive_cells_length (w : World) (x y : Nat) (b : Bool) :
    (setAlive w x y b).cells.length = w.cells.length := by
  simp [setAlive]

lemma setAlive_oob_row (w : World) (x y : Nat) (b : Bool)
    (h : w.cells.length ≤ y) : setAlive w x y b = w := by
  simp only [setAlive]
  rw [List.set_eq_of_length_le h]

lemma setAlive_oob_col (w : World) (x y : Nat) (b : Bool)
    (h : (w.cells.getD y []).length ≤ x) : setAlive w x y b = w := by
  by_cases hy : y < w.cells.length
  · simp only [setAlive]
    rw [List.set_eq_of_length_le h, set_getD_self _ _ _ hy]
  · exact setAlive_oob_row w x y b (le_of_not_lt hy)

lemma cellAt_setAlive_ne (w : World) (x y : Nat) (b : Bool) (x' y' : Nat)
    (h : x' ≠ x ∨ y' ≠ y) : cellAt (setAlive w x y b) x' y' = cellAt w x' y' := by
  rcases h with h | h
  · by_cases hy : y' = y
    · subst hy
      by_cases hylen : y' < w.cells.length
      · simp only [setAlive, cellAt, List.getD_eq_getElem?_getD]
        rw [List.getElem?_set, if_pos rfl, if_pos hylen, Option.getD_some,
            List.getElem?_set_ne (Ne.symm h)]
      · rw [setAlive_oob_row _ _ _ _ (le_of_not_lt hylen)]
    · simp only [setAlive, cellAt, List.getD_eq_getElem?_getD]
      rw [List.getElem?_set_ne (Ne.symm hy)]
  · simp only [setAlive, cellAt, List.getD_eq_getElem?_getD]
    rw [List.getElem?_set_ne (Ne.symm h)]

lemma cellAt_setAlive_self (w : World) (x y : Nat) (b : Bool)
    (hy : y < w.cells.length) (hx : x < (w.cells.getD y []).length) :
    cellAt (setAlive w x y b) x y = { cellAt w x y with alive := b } := by
  simp only [List.getD_eq_getElem?_getD] at hx
  simp only [setAlive, cellAt, List.getD_eq_getElem?_getD]
  rw [List.getElem?_set, if_pos rfl, if_pos hy, Option.getD_some,
      List.getElem?_set, if_pos rfl, if_pos hx, Option.getD_some]

lemma cellAt_setAlive_coords (w : World) (x y : Nat) (b : Bool) (x' y' : Nat) :
    ((cellAt (setAlive w x y b) x' y').x = (cellAt w x' y').x) ∧
    ((cellAt (setAlive w x y b) x' y').y = (cellAt w x' y').y) := by
  by_cases hx : x' = x
  · by_cases hy : y' = y
    · subst hx; subst hy
      by_cases hylen : y' < w.cells.length
      · by_cases hxlen : x' < (w.cells.getD y' []).length
        · rw [cellAt_setAlive_self w x' y' b hylen hxlen]
          exact ⟨rfl, rfl⟩
        · rw [setAlive_oob_col _ _ _ _ (le_of_not_lt hxlen)]
          exact ⟨rfl, rfl⟩
      · rw [setAlive_oob_row _ _ _ _ (le_of_not_lt hylen)]
        exact ⟨rfl, rfl⟩
    · rw [cellAt_setAlive_ne w x y b x' y' (Or.inr hy)]
      exact ⟨rfl, rfl⟩
  · rw [cellAt_setAlive_ne w x y b x' y' (Or.inl hx)]
    exact ⟨rfl, rfl⟩

lemma cellAt_setAlive_alive (w : World) (x y : Nat) (b : Bool) (x' y' : Nat)
    (hy : y < w.cells.length) (hx : x < (w.cells.getD y []).length) :
    (cellAt (setAlive w x y b) x' y').alive =
      if x' = x ∧ y' = y then b else (cellAt w x' y').alive := by
  by_cases hxx : x' = x
  · by_cases hyy : y' = y
    · subst hxx; subst hyy
      rw [cellAt_setAlive_self w x' y' b hy hx]
      simp
    · rw [cellAt_setAlive_ne w x y b x' y' (Or.inr hyy)]
      simp [hyy]
  · rw [cellAt_setAlive_ne w x y b x' y' (Or.inl hxx)]
    simp [hxx]

lemma wf_setAlive (w : World) (x y : Nat) (b : Bool) (h : wf w) : wf (setAlive w x y b) := by
  obtain ⟨h1, h2⟩ := h
  constructor
  · rw [setAlive_cells_length, setAlive_height]
    exact h1
  · intro y' hy'
    rw [setAlive_height] at hy'
    rw [setAlive_width]
    by_cases hyy : y = y'
    · subst hyy
      by_cases hylen : y < w.cells.length
      · have h2y := h2 y hy'
        simp only [List.getD_eq_getElem?_getD] at h2y
        simp only [setAlive, List.getD_eq_getElem?_getD]
        rw [List.getElem?_set, if_pos rfl, if_pos hylen, Option.getD_some, List.length_set]
        exact h2y
      · rw [setAlive_oob_row _ _ _ _ (le_of_not_lt hylen)]
        exact h2 y hy'
    · have h2y := h2 y' hy'
      simp only [List.getD_eq_getElem?_getD] at h2y
      simp only [setAlive, List.getD_eq_getElem?_getD]
      rw [List.getElem?_set_ne hyy]
      exact h2y

lemma foldl_inv {α β : Type} (P : β → Prop) (f : β → α → β) (l : List α) (b : β)
    (h0 : P b) (hstep : ∀ a c, P a → P (f a c)) : P (List.foldl f b l) := by
  induction l generalizing b with
  | nil => exact h0
  | cons c t ih => exact ih _ (hstep _ _ h0)

lemma foldl_self {α β : Type} (f : β → α → β) (b : β) :
    ∀ l : List α, (∀ a ∈ l, f b a = b) → List.foldl f b l = b := by
  intro l
  induction l with
  | nil => intro _; rfl
  | cons c t ih =>
    intro h
    rw [List.foldl_cons, h c (List.mem_cons_self c t)]
    exact ih (fun a ha => h a (List.mem_cons_of_mem c ha))

lemma wf_sweep (w0 : World) (f : World → Nat → Nat → Bool) (h : wf w0) : wf (sweep w0 f) := by
  unfold sweep
  apply foldl_inv (fun wa => wf wa) _ _ _ h
  intro wa y hwa
  apply foldl_inv (fun wb => wf wb) _ _ _ hwa
  intro wb x hwb
  exact wf_setAlive _ _ _ _ hwb

lemma sweep_frame (w0 : World) (f : World → Nat → Nat → Bool) :
    (sweep w0 f).width = w0.width ∧ (sweep w0 f).height = w0.height ∧
    (sweep w0 f).iteration = w0.iteration ∧
    (∀ x' y', (cellAt (sweep w0 f) x' y').x = (cellAt w0 x' y').x ∧
              (cellAt (sweep w0 f) x' y').y = (cellAt w0 x' y').y) := by
  unfold sweep
  apply foldl_inv (fun wa => wa.width = w0.width ∧ wa.height = w0.height ∧
    wa.iteration = w0.iteration ∧
    (∀ x' y', (cellAt wa x' y').x = (cellAt w0 x' y').x ∧
              (cellAt wa x' y').y = (cellAt w0 x' y').y)) _ _ _
    ⟨rfl, rfl, rfl, fun _ _ => ⟨rfl, rfl⟩⟩
  intro wa y hwa
  apply foldl_inv (fun wb => wb.width = w0.width ∧ wb.height = w0.height ∧
    wb.iteration = w0.iteration ∧
    (∀ x' y', (cellAt wb x' y').x = (cellAt w0 x' y').x ∧
              (cellAt wb x' y').y = (cellAt w0 x' y').y)) _ _ _ hwa
  intro wb xx hwb
  refine ⟨hwb.1, hwb.2.1, hwb.2.2.1, ?_⟩
  intro x' y'
  obtain ⟨c1, c2⟩ := cellAt_setAlive_coords wb xx y (f wb xx y) x' y'
  exact ⟨c1.trans (hwb.2.2.2 x' y').1, c2.trans (hwb.2.2.2 x' y').2⟩

lemma foldl_row_alive (y : Nat) (g : Nat → Bool) :
    ∀ (n : Nat) (wb : World), wf wb → n ≤ wb.width →
      ∀ x' y', (cellAt (List.foldl (fun a x => setAlive a x y (g x)) wb (List.range n)) x' y').alive
        = if y' = y ∧ x' < n ∧ y < wb.height then g x'
          else (cellAt wb x' y').alive := by
  intro n
  induction n with
  | zero =>
    intro wb hwb hn x' y'
    simp
  | succ n ih =>
    intro wb hwb hn x' y'
    rw [List.range_succ, List.foldl_append, List.foldl_cons, List.foldl_nil]
    have hwfp : wf (List.foldl (fun a x => setAlive a x y (g x)) wb (List.range n)) :=
      foldl_inv (fun (a : World) => wf a) _ _ _ hwb (fun a c hc => wf_setAlive _ _ _ _ hc)
    have hdims : (List.foldl (fun a x => setAlive a x y (g x)) wb (List.range n)).width = wb.width ∧
        (List.foldl (fun a x => setAlive a x y (g x)) wb (List.range n)).height = wb.height :=
      foldl_inv (fun (a : World) => a.width = wb.width ∧ a.height = wb.height) _ _ _ ⟨rfl, rfl⟩
        (fun a c hc => ⟨by rw [setAlive_width]; exact hc.1, by rw [setAlive_height]; exact hc.2⟩)
    by_cases hyh : y < wb.height
    · have hylen : y < (List.foldl (fun a x => setAlive a x y (g x)) wb (List.range n)).cells.length := by
        rw [hwfp.1, hdims.2]; exact hyh
      have hxlen : n < ((List.foldl (fun a x => setAlive a x y (g x)) wb (List.range n)).cells.getD y []).length := by
        rw [hwfp.2 y (by rw [hdims.2]; exact hyh), hdims.1]
        omega
      rw [cellAt_setAlive_alive _ n y (g n) x' y' hylen hxlen, ih wb hwb (by omega) x' y']
      by_cases hP1 : x' = n ∧ y' = y
      · obtain ⟨h1, h2⟩ := hP1
        subst h1
        subst h2
        rw [if_pos ⟨rfl, rfl⟩, if_pos ⟨rfl, Nat.lt_succ_self _, hyh⟩]
      · rw [if_neg hP1]
        by_cases hP2 : y' = y ∧ x' < n ∧ y < wb.height
        · rw [if_pos hP2, if_pos ⟨hP2.1, Nat.lt_succ_of_lt hP2.2.1, hP2.2.2⟩]
        · rw [if_neg hP2, if_neg ?_]
          intro hP3
          have hxn : x' ≠ n := fun hh => hP1 ⟨hh, hP3.1⟩
          exact hP2 ⟨hP3.1, by omega, hP3.2.2⟩
    · rw [setAlive_oob_row _ _ _ _ (by rw [hwfp.1, hdims.2]; exact le_of_not_lt hyh),
          ih wb hwb (by omega) x' y']
      by_cases hC : y' = y ∧ x' < n ∧ y < wb.height
      · exact absurd hC.2.2 hyh
      · rw [if_neg hC, if_neg (fun hC2 => hyh hC2.2.2)]

lemma foldl_rows_alive (W : Nat) (g : Nat → Nat → Bool) :
    ∀ (m : Nat) (wb : World), wf wb → W = wb.width → m ≤ wb.height →
      ∀ x' y', (cellAt (List.foldl
            (fun wa y => List.foldl (fun a x => setAlive a x y (g x y)) wa (List.range W))
            wb (List.range m)) x' y').alive
        = if x' < W ∧ y' < m then g x' y' else (cellAt wb x' y').alive := by
  intro m
  induction m with
  | zero =>
    intro wb hwb hW hm x' y'
    simp
  | succ m ih =>
    intro wb hwb hW hm x' y'
    rw [List.range_succ, List.foldl_append, List.foldl_cons, List.foldl_nil]
    have hwfp : wf (List.foldl
        (fun wa y => List.foldl (fun a x => setAlive a x y (g x y)) wa (List.range W))
        wb (List.range m)) := by
      apply foldl_inv (fun (a : World) => wf a) _ _ _ hwb
      intro a c hc
      exact foldl_inv (fun (a2 : World) => wf a2) _ _ _ hc (fun a2 c2 hc2 => wf_setAlive _ _ _ _ hc2)
    have hdims : (List.foldl
        (fun wa y => List.foldl (fun a x => setAlive a x y (g x y)) wa (List.range W))
        wb (List.range m)).width = wb.width ∧
        (List.foldl
        (fun wa y => List.foldl (fun a x => setAlive a x y (g x y)) wa (List.range W))
        wb (List.range m)).height = wb.height := by
      apply foldl_inv (fun (a : World) => a.width = wb.width ∧ a.height = wb.height) _ _ _ ⟨rfl, rfl⟩
      intro a c hc
      apply foldl_inv (fun (a2 : World) => a2.width = wb.width ∧ a2.height = wb.height) _ _ _ hc
      intro a2 c2 hc2
      exact ⟨by rw [setAlive_width]; exact hc2.1, by rw [setAlive_height]; exact hc2.2⟩
    rw [foldl_row_alive m (fun x => g x m) W _ hwfp (by rw [hdims.1, ← hW]),
        ih wb hwb hW (by omega) x' y']
    have hmh : m < wb.height := by omega
    by_cases hP1 : y' = m ∧ x' < W
    · rw [if_pos ⟨hP1.1, hP1.2, by rw [hdims.2]; exact hmh⟩,
          if_pos ⟨hP1.2, by omega⟩]
      rw [hP1.1]
    · rw [if_neg (fun hh => hP1 ⟨hh.1, hh.2.1⟩)]
      by_cases hP2 : x' < W ∧ y' < m
      · rw [if_pos hP2, if_pos ⟨hP2.1, by omega⟩]
      · rw [if_neg hP2, if_neg ?_]
        intro hP3
        have hym : y' ≠ m := fun hh => hP1 ⟨hh, hP3.1⟩
        exact hP2 ⟨hP3.1, by omega⟩

lemma sweep_const_alive (w0 : World) (g : Nat → Nat → Bool) (hwf : wf w0) (x y : Nat) :
    (cellAt (sweep w0 (fun _ u v => g u v)) x y).alive =
      if x < w0.width ∧ y < w0.height then g x y else (cellAt w0 x y).alive := by
  simp only [sweep]
  rw [foldl_rows_alive w0.width g w0.height w0 hwf rfl (le_refl _) x y]

lemma setAlive_self (w : World) (x y : Nat) (hwf : wf w) (hx : x < w.width) (hy : y < w.height) :
    setAlive w x y ((cellAt w x y).alive) = w := by
  have h1 : y < w.cells.length := by rw [hwf.1]; exact hy
  have h2 : x < (w.cells.getD y []).length := by rw [hwf.2 y hy]; exact hx
  simp only [setAlive, cellAt]
  have heta : { (w.cells.getD y []).getD x dummyCell with
      alive := ((w.cells.getD y []).getD x dummyCell).alive } =
      (w.cells.getD y []).getD x dummyCell := rfl
  rw [heta, set_getD_self _ _ _ h2, set_getD_self _ _ _ h1]

lemma sweep_fixed (w0 : World) (f : World → Nat → Nat → Bool) (hwf : wf w0)
    (h : ∀ x < w0.width, ∀ y < w0.height, f w0 x y = (cellAt w0 x y).alive) :
    sweep w0 f = w0 := by
  unfold sweep
  apply foldl_self
  intro y hy
  rw [List.mem_range] at hy
  apply foldl_self
  intro x hx
  rw [List.mem_range] at hx
  rw [h x hx y hy]
  exact setAlive_self w0 x y hwf hx hy

lemma compare_iteration (w1 w2 : World) (n : Nat) :
    world_compare { w1 with iteration := n } w2 = world_compare w1 w2 := rfl

lemma is_empty_iteration (w : World) (n : Nat) :
    world_is_empty { w with iteration := n } = world_is_empty w := rfl

lemma compare_eq_false (w1 w2 : World) (hW : w1.width = w2.width) (hH : w1.height = w2.height)
    (h : ∀ x < w1.width, ∀ y < w1.height, (cellAt w1 x y).alive = (cellAt w2 x y).alive) :
    world_compare w1 w2 = false := by
  have hall : ((List.range w2.height).all fun y => (List.range w2.width).all fun x =>
      (cellAt w1 x y).alive == (cellAt w2 x y).alive) = true := by
    rw [List.all_eq_true]
    intro y hy
    rw [List.mem_range] at hy
    rw [List.all_eq_true]
    intro x hx
    rw [List.mem_range] at hx
    rw [h x (hW.symm ▸ hx) y (hH.symm ▸ hy)]
    exact beq_self_eq_true _
  unfold world_compare
  rw [hW, hH, bne_self_eq_false, bne_self_eq_false, Bool.or_self,
      if_neg (by simp), hall]
  rfl

lemma compare_self (w : World) : world_compare w w = false :=
  compare_eq_false w w rfl rfl (fun _ _ _ _ => rfl)

lemma copy_width (w : World) : (world_copy w).width = w.width :=
  (sweep_frame _ _).1

lemma copy_height (w : World) : (world_copy w).height = w.height :=
  (sweep_frame _ _).2.1

lemma copy_iteration (w : World) : (world_copy w).iteration = 0 :=
  (sweep_frame _ _).2.2.1

lemma wf_copy (w : World) : wf (world_copy w) :=
  wf_sweep _ _ (wf_init _ _)

lemma copy_alive (w : World) (x y : Nat) (hx : x < w.width) (hy : y < w.height) :
    (cellAt (world_copy w) x y).alive = (cellAt w x y).alive := by
  unfold world_copy
  rw [sweep_const_alive (world_init w.width w.height)
      (fun u v => (cellAt w u v).alive) (wf_init _ _) x y]
  rw [if_pos ⟨hx, hy⟩]

lemma compare_copy_left (w : World) : world_compare (world_copy w) w = false := by
  apply compare_eq_false _ _ (copy_width w) (copy_height w)
  intro x hx y hy
  rw [copy_width w] at hx
  rw [copy_height w] at hy
  exact copy_alive w x y hx hy

lemma compare_copy_right (w : World) : world_compare w (world_copy w) = false := by
  apply compare_eq_false _ _ (copy_width w).symm (copy_height w).symm
  intro x hx y hy
  exact (copy_alive w x y hx hy).symm

lemma advance_of_fixed (w : World) (hwf : wf w)
    (h : ∀ x < w.width, ∀ y < w.height, cell_update w (cellAt w x y) = (cellAt w x y).alive) :
    world_advance w = (w, false) := by
  simp only [world_advance]
  rw [sweep_fixed w _ hwf h, compare_copy_right w]
  rfl

lemma mkWorld_width (W H : Nat) (f : Nat → Nat → Bool) : (mkWorld W H f).width = W :=
  (sweep_frame _ _).1

lemma mkWorld_height (W H : Nat) (f : Nat → Nat → Bool) : (mkWorld W H f).height = H :=
  (sweep_frame _ _).2.1

lemma wf_mkWorld (W H : Nat) (f : Nat → Nat → Bool) : wf (mkWorld W H f) :=
  wf_sweep _ _ (wf_init _ _)

lemma cellAt_mkWorld_alive (W H : Nat) (f : Nat → Nat → Bool) (x y : Nat) :
    (cellAt (mkWorld W H f) x y).alive = if x < W ∧ y < H then f x y else false := by
  unfold mkWorld
  rw [sweep_const_alive _ _ (wf_init W H) x y]
  show (if x < W ∧ y < H then f x y else (cellAt (world_init W H) x y).alive) = _
  by_cases h : x < W ∧ y < H
  · rw [if_pos h, if_pos h]
  · rw [if_neg h, if_neg h, cellAt_init, apply_ite (fun (c : Cell) => c.alive)]
    exact ite_self false

lemma cellAt_mkWorld (W H : Nat) (f : Nat → Nat → Bool) (x y : Nat) (hx : x < W) (hy : y < H) :
    cellAt (mkWorld W H f) x y = { alive := f x y, x := x, y := y } := by
  have halive := cellAt_mkWorld_alive W H f x y
  rw [if_pos ⟨hx, hy⟩] at halive
  have hcoords := (sweep_frame (world_init W H) (fun _ u v => f u v)).2.2.2 x y
  have hcell := cellAt_init W H x y
  rw [if_pos ⟨hx, hy⟩] at hcell
  obtain ⟨hcx, hcy⟩ := hcoords
  rw [hcell] at hcx hcy
  unfold mkWorld at halive ⊢
  cases hcc : cellAt (sweep (world_init W H) (fun _ u v => f u v)) x y with
  | mk a cx cy =>
    rw [hcc] at halive hcx hcy
    simp only at halive hcx hcy
    rw [halive, hcx, hcy]

lemma neighbourCoord_nonneg (n : Nat) (d : Int) (hn : n + 1 < 2147483648)
    (hd1 : -1 ≤ d) (hd2 : d ≤ 1) (hpos : 0 ≤ (n : Int) + d) :
    neighbourCoord n d = ((n : Int) + d).toNat := by
  simp only [neighbourCoord, toInt32, intToSize, SIZE_MOD, INT_MOD]
  split_ifs <;> omega

lemma neighbourCoord_neg (n : Nat) (d : Int) (hn : n + 1 < 2147483648)
    (hd1 : -1 ≤ d) (hd2 : d ≤ 1) (hneg : (n : Int) + d < 0) :
    neighbourCoord n d = 18446744073709551615 := by
  simp only [neighbourCoord, toInt32, intToSize, SIZE_MOD, INT_MOD]
  split_ifs <;> omega

lemma step_flat (c : Bool) (k v : Nat) :
    (if c = true then k + v else k) = k + (if c = true then v else 0) := by
  cases c <;> simp

lemma ite_ite_flat (A al : Bool) :
    (if A = true then (if al = true then (1 : Nat) else 0) else 0) =
      (if A = true ∧ al = true then (1 : Nat) else 0) := by
  cases A <;> cases al <;> simp

lemma count_term_eq (w : World) (cx cy : Nat) (dx dy : Int)
    (hW : w.width < 2147483648) (hH : w.height < 2147483648)
    (hx : cx < w.width) (hy : cy < w.height)
    (hdx1 : -1 ≤ dx) (hdx2 : dx ≤ 1) (hdy1 : -1 ≤ dy) (hdy2 : dy ≤ 1) :
    (if (!(dx == 0 && dy == 0) &&
         world_is_in_bounds w (neighbourCoord cx dx) (neighbourCoord cy dy)) = true then
       (if (cellAt w (neighbourCoord cx dx) (neighbourCoord cy dy)).alive = true then 1 else 0)
     else 0)
    = nbInd w cx cy dx dy := by
  unfold nbInd
  by_cases hcen : dx = 0 ∧ dy = 0
  · obtain ⟨h1, h2⟩ := hcen
    subst h1
    subst h2
    simp
  · have hc1 : (!(dx == 0 && dy == 0)) = true := by
      rcases not_and_or.mp hcen with h | h <;> simp [h]
    rw [ite_ite_flat]
    apply if_congr _ rfl rfl
    rw [Bool.and_eq_true, hc1]
    by_cases hbx : 0 ≤ (cx : Int) + dx
    · by_cases hby : 0 ≤ (cy : Int) + dy
      · rw [neighbourCoord_nonneg cx dx (by omega) hdx1 hdx2 hbx,
            neighbourCoord_nonneg cy dy (by omega) hdy1 hdy2 hby]
        simp only [world_is_in_bounds, Bool.and_eq_true, decide_eq_true_eq]
        constructor
        · rintro ⟨⟨_, ⟨⟨_, hxw⟩, ⟨_, hyh⟩⟩⟩, hal⟩
          exact ⟨hcen, hbx, by omega, hby, by omega, hal⟩
        · rintro ⟨_, _, hxw, _, hyh, hal⟩
          exact ⟨⟨trivial, ⟨⟨Nat.zero_le _, by omega⟩, ⟨Nat.zero_le _, by omega⟩⟩⟩, hal⟩
      · rw [neighbourCoord_neg cy dy (by omega) hdy1 hdy2 (by omega)]
        simp only [world_is_in_bounds, Bool.and_eq_true, decide_eq_true_eq]
        constructor
        · rintro ⟨⟨_, ⟨_, ⟨_, hyh⟩⟩⟩, _⟩
          exact absurd hyh (by omega)
        · rintro ⟨_, _, _, hy0, _, _⟩
          exact absurd hy0 (by omega)
    · rw [neighbourCoord_neg cx dx (by omega) hdx1 hdx2 (by omega)]
      simp only [world_is_in_bounds, Bool.and_eq_true, decide_eq_true_eq]
      constructor
      · rintro ⟨⟨_, ⟨⟨_, hxw⟩, _⟩⟩, _⟩
        exact absurd hxw (by omega)
      · rintro ⟨_, hx0, _, _, _⟩
        exact absurd hx0 (by omega)

lemma beq_nat_decide (a b : Nat) : (a == b) = decide (a = b) := by
  cases h : decide (a = b)
  · simp only [decide_eq_false_iff_not] at h
    simp [h]
  · simp only [decide_eq_true_eq] at h
    simp [h]

set_option maxHeartbeats 1000000 in
lemma cell_update_eq_count (w : World) (c : Cell)
    (hW : w.width < 2147483648) (hH : w.height < 2147483648)
    (hx : c.x < w.width) (hy : c.y < w.height) :
    cell_update w c =
      if c.alive then
        decide (1 < neighborCountSpec w c.x c.y ∧ neighborCountSpec w c.x c.y < 4)
      else decide (neighborCountSpec w c.x c.y = 3) := by
  have hcen : (!((0 : Int) == 0 && (0 : Int) == 0) &&
      world_is_in_bounds w (neighbourCoord c.x 0) (neighbourCoord c.y 0)) = false := by
    simp
  simp only [cell_update, OFFSETS, List.foldl_cons, List.foldl_nil, step_flat]
  rw [hcen]
  simp only [Bool.false_eq_true, if_false, add_zero, Nat.zero_add]
  rw [count_term_eq w c.x c.y (-1) (-1) hW hH hx hy (by omega) (by omega) (by omega) (by omega),
      count_term_eq w c.x c.y 0 (-1) hW hH hx hy (by omega) (by omega) (by omega) (by omega),
      count_term_eq w c.x c.y 1 (-1) hW hH hx hy (by omega) (by omega) (by omega) (by omega),
      count_term_eq w c.x c.y (-1) 0 hW hH hx hy (by omega) (by omega) (by omega) (by omega),
      count_term_eq w c.x c.y 1 0 hW hH hx hy (by omega) (by omega) (by omega) (by omega),
      count_term_eq w c.x c.y (-1) 1 hW hH hx hy (by omega) (by omega) (by omega) (by omega),
      count_term_eq w c.x c.y 0 1 hW hH hx hy (by omega) (by omega) (by omega) (by omega),
      count_term_eq w c.x c.y 1 1 hW hH hx hy (by omega) (by omega) (by omega) (by omega)]
  show (if c.alive then _ else _) = _
  simp only [MIN_SURVIVAL, MAX_SURVIVAL, SPAWN, neighborCountSpec]
  cases c.alive
  · simp only [if_false, Bool.false_eq_true]
    exact beq_nat_decide _ _
  · simp only [if_true]
    rw [Bool.decide_and]

lemma blockWorld_width (W H a b : Nat) : (blockWorld W H a b).width = W :=
  mkWorld_width _ _ _

lemma blockWorld_height (W H a b : Nat) : (blockWorld W H a b).height = H :=
  mkWorld_height _ _ _

lemma ite_false_eq_true (C : Prop) [Decidable C] (d : Bool) :
    ((if C then d else false) = true) ↔ (C ∧ d = true) := by
  split <;> simp [*]

lemma nbInd_mkWorld (W H : Nat) (f : Nat → Nat → Bool) (x y : Nat) (dx dy : Int) :
    nbInd (mkWorld W H f) x y dx dy =
      if (¬(dx = 0 ∧ dy = 0)) ∧ 0 ≤ (x : Int) + dx ∧ (x : Int) + dx < (W : Int) ∧
         0 ≤ (y : Int) + dy ∧ (y : Int) + dy < (H : Int) ∧
         f ((x : Int) + dx).toNat ((y : Int) + dy).toNat = true
      then 1 else 0 := by
  unfold nbInd
  rw [mkWorld_width, mkWorld_height]
  apply if_congr _ rfl rfl
  constructor
  · rintro ⟨h1, h2, h3, h4, h5, h6⟩
    rw [cellAt_mkWorld_alive, ite_false_eq_true] at h6
    exact ⟨h1, h2, h3, h4, h5, h6.2⟩
  · rintro ⟨h1, h2, h3, h4, h5, h6⟩
    refine ⟨h1, h2, h3, h4, h5, ?_⟩
    rw [cellAt_mkWorld_alive, ite_false_eq_true]
    exact ⟨⟨by omega, by omega⟩, h6⟩

set_option maxHeartbeats 4000000 in
lemma block_fixed (W H a b : Nat) (hW : W < 2147483648) (hH : H < 2147483648)
    (ha : a + 1 < W) (hb : b + 1 < H) :
    ∀ x < W, ∀ y < H,
      cell_update (blockWorld W H a b) (cellAt (blockWorld W H a b) x y) =
        (cellAt (blockWorld W H a b) x y).alive := by
  intro x hx y hy
  unfold blockWorld
  rw [cellAt_mkWorld W H _ x y hx hy]
  rw [cell_update_eq_count _ _ (by rw [mkWorld_width]; exact hW)
      (by rw [mkWorld_height]; exact hH) (by rw [mkWorld_width]; exact hx)
      (by rw [mkWorld_height]; exact hy)]
  dsimp only
  have hiff : ∀ dx dy : Int, ∀ C : Prop, ∀ inst : Decidable C,
      ((¬(dx = 0 ∧ dy = 0) ∧ 0 ≤ (x : Int) + dx ∧ (x : Int) + dx < (W : Int) ∧
        0 ≤ (y : Int) + dy ∧ (y : Int) + dy < (H : Int) ∧
        (fun u v => decide ((u = a ∨ u = a + 1) ∧ (v = b ∨ v = b + 1)))
          ((x : Int) + dx).toNat ((y : Int) + dy).toNat = true) ↔ C) →
      nbInd (mkWorld W H
          (fun u v => decide ((u = a ∨ u = a + 1) ∧ (v = b ∨ v = b + 1)))) x y dx dy =
        (if C then 1 else 0) := by
    intro dx dy C inst hC
    rw [nbInd_mkWorld]
    exact if_congr hC rfl rfl
  have e1 := hiff (-1) (-1)
    ((1 ≤ x ∧ (x - 1 = a ∨ x - 1 = a + 1)) ∧ (1 ≤ y ∧ (y - 1 = b ∨ y - 1 = b + 1))) (by infer_instance)
    (by simp only [decide_eq_true_eq]; omega)
  have e2 := hiff 0 (-1)
    ((x = a ∨ x = a + 1) ∧ (1 ≤ y ∧ (y - 1 = b ∨ y - 1 = b + 1))) (by infer_instance)
    (by simp only [decide_eq_true_eq]; omega)
  have e3 := hiff 1 (-1)
    ((x + 1 = a ∨ x + 1 = a + 1) ∧ (1 ≤ y ∧ (y - 1 = b ∨ y - 1 = b + 1))) (by infer_instance)
    (by simp only [decide_eq_true_eq]; omega)
  have e4 := hiff (-1) 0
    ((1 ≤ x ∧ (x - 1 = a ∨ x - 1 = a + 1)) ∧ (y = b ∨ y = b + 1)) (by infer_instance)
    (by simp only [decide_eq_true_eq]; omega)
  have e5 := hiff 1 0
    ((x + 1 = a ∨ x + 1 = a + 1) ∧ (y = b ∨ y = b + 1)) (by infer_instance)
    (by simp only [decide_eq_true_eq]; omega)
  have e6 := hiff (-1) 1
    ((1 ≤ x ∧ (x - 1 = a ∨ x - 1 = a + 1)) ∧ (y + 1 = b ∨ y + 1 = b + 1)) (by infer_instance)
    (by simp only [decide_eq_true_eq]; omega)
  have e7 := hiff 0 1
    ((x = a ∨ x = a + 1) ∧ (y + 1 = b ∨ y + 1 = b + 1)) (by infer_instance)
    (by simp only [decide_eq_true_eq]; omega)
  have e8 := hiff 1 1
    ((x + 1 = a ∨ x + 1 = a + 1) ∧ (y + 1 = b ∨ y + 1 = b + 1)) (by infer_instance)
    (by simp only [decide_eq_true_eq]; omega)
  simp only [neighborCountSpec, e1, e2, e3, e4, e5, e6, e7, e8]
  clear hiff e1 e2 e3 e4 e5 e6 e7 e8
  by_cases hP : (x = a ∨ x = a + 1) ∧ (y = b ∨ y = b + 1)
  · rw [decide_eq_true hP, if_pos rfl, decide_eq_true_eq]
    by_cases p1 : 1 ≤ x ∧ (x - 1 = a ∨ x - 1 = a + 1) <;>
      by_cases p2 : x = a ∨ x = a + 1 <;>
        by_cases p3 : x + 1 = a ∨ x + 1 = a + 1 <;>
          by_cases q1 : 1 ≤ y ∧ (y - 1 = b ∨ y - 1 = b + 1) <;>
            by_cases q2 : y = b ∨ y = b + 1 <;>
              by_cases q3 : y + 1 = b ∨ y + 1 = b + 1 <;>
                simp only [p1, p2, p3, q1, q2, q3, and_true, true_and, and_false, false_and,
                  iff_true, iff_false, if_true, if_false] <;>
                omega
  · rw [decide_eq_false hP, if_neg Bool.false_ne_true, decide_eq_false_iff_not]
    by_cases p1 : 1 ≤ x ∧ (x - 1 = a ∨ x - 1 = a + 1) <;>
      by_cases p2 : x = a ∨ x = a + 1 <;>
        by_cases p3 : x + 1 = a ∨ x + 1 = a + 1 <;>
          by_cases q1 : 1 ≤ y ∧ (y - 1 = b ∨ y - 1 = b + 1) <;>
            by_cases q2 : y = b ∨ y = b + 1 <;>
              by_cases q3 : y + 1 = b ∨ y + 1 = b + 1 <;>
                simp only [p1, p2, p3, q1, q2, q3, and_true, true_and, and_false, false_and,
                  iff_true, iff_false, if_true, if_false] <;>
                omega

lemma advance_block (W H a b : Nat) (hW : W < 2147483648) (hH : H < 2147483648)
    (ha : a + 1 < W) (hb : b + 1 < H) :
    world_advance (blockWorld W H a b) = (blockWorld W H a b, false) := by
  apply advance_of_fixed _ (wf_mkWorld _ _ _)
  intro x hx y hy
  rw [mkWorld_width] at hx
  rw [mkWorld_height] at hy
  exact block_fixed W H a b hW hH ha hb x hx y hy

lemma advance_spec (w : World) :
    ((world_advance w).2 = (world_compare (world_advance w).1 (world_copy w)
       && !(world_is_empty (world_advance w).1)))
  ∧ ((world_advance w).1.iteration
       = w.iteration + (if world_compare (world_advance w).1 (world_copy w) = true
                        then 1 else 0)) := by
  have hiter : (sweep w (fun wa x y => cell_update wa (cellAt wa x y))).iteration
      = w.iteration := (sweep_frame _ _).2.2.1
  simp only [world_advance]
  simp only [compare_iteration, is_empty_iteration]
  constructor
  · rcases Bool.dichotomy (world_compare (sweep w (fun wa x y => cell_update wa (cellAt wa x y)))
        (world_copy w)) with hc | hc <;>
      rcases Bool.dichotomy (world_is_empty
        (sweep w (fun wa x y => cell_update wa (cellAt wa x y)))) with he | he <;>
        simp [hc, he]
  · rcases Bool.dichotomy (world_compare (sweep w (fun wa x y => cell_update wa (cellAt wa x y)))
        (world_copy w)) with hc | hc <;>
      simp [hc, hiter]

/-- **C1** (evidence for the code bug): the claim says `world_advance`
evaluates the cell rule for every cell against the snapshot taken before
any mutation, so each next state is a function of the previous generation
only. The code instead passes the live, partially updated grid `w` (not
the snapshot `prev`) to `cell_update`. On the horizontal blinker, the
rule evaluated against the pre-state kills cell `(1,2)` (it has exactly
one live neighbour in the snapshot), yet `world_advance` leaves `(1,2)`
alive, because by the time `(1,2)` is processed its neighbour `(2,1)`
has already been updated to alive in the same sweep. -/
theorem C1_rule_reads_partially_updated_grid :
    cell_update blinkerH (cellAt blinkerH 1 2) = false ∧
    (cellAt (world_advance blinkerH).1 1 2).alive = true := by
  decide

/-- **C2**: `world_advance` signals "continue" (returns 1) iff the
post-update grid differs from the pre-update snapshot (`world_compare`,
which ignores iteration counters) and is not empty; the iteration counter
is bumped by exactly 1 iff the comparison reports a difference (even if
the grid became empty), and left unchanged otherwise. -/
theorem C2_advance_signal_and_iteration (w : World) :
    ((world_advance w).2 = (world_compare (world_advance w).1 (world_copy w)
       && !(world_is_empty (world_advance w).1)))
  ∧ ((world_advance w).1.iteration
       = w.iteration + (if world_compare (world_advance w).1 (world_copy w) = true
                        then 1 else 0)) :=
  advance_spec w

/-- **C3**: for every grid state read by the rule and every cell at its
stored position, `cell_update` counts the live cells among the at most 8
in-bounds neighbours (never the cell itself, no wraparound, out-of-bounds
positions contribute nothing — see `neighborCountSpec`), and a live cell
stays alive iff that count is strictly between 1 and 4, while a dead cell
becomes alive iff the count equals 3. The bounds keep the machine
arithmetic of the neighbour-coordinate conversions exact; they hold for
every grid the program can allocate (dimensions come from a C `int`). -/
theorem C3_cell_rule (w : World) (c : Cell)
    (hW : w.width < 2147483648) (hH : w.height < 2147483648)
    (hx : c.x < w.width) (hy : c.y < w.height) :
    cell_update w c =
      if c.alive then
        decide (1 < neighborCountSpec w c.x c.y ∧ neighborCountSpec w c.x c.y < 4)
      else decide (neighborCountSpec w c.x c.y = 3) :=
  cell_update_eq_count w c hW hH hx hy

/-- Witness for C3 at the centre cell of the horizontal blinker. -/
theorem C3_cell_rule_witness :
    cell_update blinkerH (cellAt blinkerH 2 2) =
      if (cellAt blinkerH 2 2).alive then
        decide (1 < neighborCountSpec blinkerH (cellAt blinkerH 2 2).x (cellAt blinkerH 2 2).y ∧
                neighborCountSpec blinkerH (cellAt blinkerH 2 2).x (cellAt blinkerH 2 2).y < 4)
      else decide (neighborCountSpec blinkerH (cellAt blinkerH 2 2).x (cellAt blinkerH 2 2).y = 3) :=
  C3_cell_rule blinkerH (cellAt blinkerH 2 2) (by decide) (by decide) (by decide) (by decide)

/-- **C4** (evidence for the code bug): the claim says `world_advance`
turns the horizontal blinker into the vertical blinker and a second call
restores it. Because the sweep updates in place, the first call instead
produces a four-cell pattern different from the vertical blinker, and the
second call does not restore the horizontal blinker; the iteration
counter does increment by 1. -/
theorem C4_blinker_not_oscillating :
    world_compare (world_advance blinkerH).1 blinkerV = true ∧
    world_compare (world_advance (world_advance blinkerH).1).1 blinkerH = true ∧
    (world_advance blinkerH).1.iteration = blinkerH.iteration + 1 := by
  decide

/-- **C5**: `world_is_in_bounds`, called with signed coordinates that are
converted to `size_t` on the way in (`intToSize`), returns true iff
`0 ≤ x < width` and `0 ≤ y < height`; a negative coordinate wraps to a
huge `size_t` value that is never judged in-bounds. In particular it is
false at `(-1, 0)` and `(width, 0)`, and true at `(0, 0)` and
`(width - 1, height - 1)` on a non-degenerate grid. The bounds on `x`,
`y`, `width`, `height` are those of the C `int` type the program uses. -/
theorem C5_is_in_bounds_signed (w : World) (x y : Int)
    (hW : w.width < 2147483648) (hH : w.height < 2147483648)
    (hx1 : -2147483648 ≤ x) (hx2 : x < 2147483648)
    (hy1 : -2147483648 ≤ y) (hy2 : y < 2147483648) :
    (world_is_in_bounds w (intToSize x) (intToSize y) = true ↔
      (0 ≤ x ∧ x < (w.width : Int) ∧ 0 ≤ y ∧ y < (w.height : Int)))
  ∧ world_is_in_bounds w (intToSize (-1)) (intToSize 0) = false
  ∧ world_is_in_bounds w (intToSize (w.width : Int)) (intToSize 0) = false
  ∧ (0 < w.width → 0 < w.height →
      world_is_in_bounds w (intToSize 0) (intToSize 0) = true ∧
      world_is_in_bounds w (intToSize ((w.width : Int) - 1))
        (intToSize ((w.height : Int) - 1)) = true) := by
  have hiff : ∀ u v : Int, -2147483648 ≤ u → u < 2147483648 →
      -2147483648 ≤ v → v < 2147483648 →
      (world_is_in_bounds w (intToSize u) (intToSize v) = true ↔
        (0 ≤ u ∧ u < (w.width : Int) ∧ 0 ≤ v ∧ v < (w.height : Int))) := by
    intro u v h1 h2 h3 h4
    simp only [world_is_in_bounds, intToSize, Bool.and_eq_true, decide_eq_true_eq]
    omega
  refine ⟨hiff x y hx1 hx2 hy1 hy2, ?_, ?_, ?_⟩
  · rcases Bool.dichotomy (world_is_in_bounds w (intToSize (-1)) (intToSize 0)) with hb | hb
    · exact hb
    · have h2 := (hiff (-1) 0 (by omega) (by omega) (by omega) (by omega)).mp hb
      omega
  · rcases Bool.dichotomy (world_is_in_bounds w (intToSize (w.width : Int)) (intToSize 0))
        with hb | hb
    · exact hb
    · have h2 := (hiff (w.width : Int) 0 (by omega) (by omega) (by omega) (by omega)).mp hb
      omega
  · intro hw0 hh0
    constructor
    · exact (hiff 0 0 (by omega) (by omega) (by omega) (by omega)).mpr (by omega)
    · exact (hiff ((w.width : Int) - 1) ((w.height : Int) - 1)
        (by omega) (by omega) (by omega) (by omega)).mpr (by omega)

/-- Witness for C5 on a 5-by-5 grid at `x = -1`, `y = 0`. -/
theorem C5_is_in_bounds_signed_witness :
    (world_is_in_bounds (world_init 5 5) (intToSize (-1)) (intToSize 0) = true ↔
      (0 ≤ (-1 : Int) ∧ (-1 : Int) < ((world_init 5 5).width : Int) ∧
       0 ≤ (0 : Int) ∧ (0 : Int) < ((world_init 5 5).height : Int)))
  ∧ world_is_in_bounds (world_init 5 5) (intToSize (-1)) (intToSize 0) = false
  ∧ world_is_in_bounds (world_init 5 5) (intToSize 0) (intToSize 0) = true := by
  have h := C5_is_in_bounds_signed (world_init 5 5) (-1) 0 (by decide) (by decide)
    (by decide) (by decide) (by decide) (by decide)
  exact ⟨h.1, h.2.1, (h.2.2.2 (by decide) (by decide)).1⟩

/-- **C6 counterexample**: the claim asserts the render output (as a
string, after the cursor-reset sequence) is the rows, then a blank
separator line, then the status line. As a string this would put an
extra newline between the rows and the status line (`claimedDraw`); the
code instead emits a vertical-tab control character (`"\v"` in the
`printf` format string), so on a concrete one-cell grid the two
strings differ. -/
theorem C6_draw_counterexample :
    world_draw (mkWorld 1 1 (fun _ _ => true)) ≠
      claimedDraw (mkWorld 1 1 (fun _ _ => true)) := by
  decide

/-- **C6 (amended)**: `world_draw` emits, after the cursor-reset control
sequence, exactly `height` rows of `width` characters each (an o for a
live cell, a space for a dead one), a newline ending each row, then a
vertical-tab control character (which displays as a blank separator
line), then the status line `width: <W>, height: <H>, iteration: <G>`
ended by a newline. The embedding is a pure function of the grid: the
grid is not mutated. -/
theorem C6_draw_amended (w : World) :
    world_draw w = "\x1b[H" ++ drawRowsSpec w ++ "\x0B" ++ statusLineSpec w := by
  unfold world_draw drawRowsSpec statusLineSpec
  simp only [String.append_assoc]

/-- **C7**: any grid that is exactly a 2-by-2 block of live cells is left
unchanged by `world_advance`; a second call signals "stop" (returns 0),
and the iteration counter is not incremented by that stagnating call.
The width/height bounds are those of the C `int` type the program
parses dimensions with. -/
theorem C7_block_still_life (W H a b : Nat)
    (hW : W < 2147483648) (hH : H < 2147483648) (ha : a + 1 < W) (hb : b + 1 < H) :
    (world_advance (blockWorld W H a b)).1 = blockWorld W H a b
  ∧ (world_advance ((world_advance (blockWorld W H a b)).1)).2 = false
  ∧ (world_advance ((world_advance (blockWorld W H a b)).1)).1.iteration
      = (world_advance (blockWorld W H a b)).1.iteration := by
  have h := advance_block W H a b hW hH ha hb
  have h1 : (world_advance (blockWorld W H a b)).1 = blockWorld W H a b := by rw [h]
  have h2 : (world_advance (blockWorld W H a b)).2 = false := by rw [h]
  refine ⟨h1, ?_, ?_⟩
  · rw [h1]
    exact h2
  · rw [h1, h1]

/-- Witness for C7 on a 4-by-4 grid with the block at `(1,1)`. -/
theorem C7_block_still_life_witness :
    (world_advance (blockWorld 4 4 1 1)).1 = blockWorld 4 4 1 1
  ∧ (world_advance ((world_advance (blockWorld 4 4 1 1)).1)).2 = false
  ∧ (world_advance ((world_advance (blockWorld 4 4 1 1)).1)).1.iteration
      = (world_advance (blockWorld 4 4 1 1)).1.iteration :=
  C7_block_still_life 4 4 1 1 (by decide) (by decide) (by decide) (by decide)

/-- **C8**: `world_copy` produces a grid with the same width, the same
height and the same alive flag at every cell position, hence
`world_compare` (the equality of the C code, `0` = equal) reports the
clone equal to the source; and `world_compare` never examines the
iteration counters. -/
theorem C8_clone_equals (G : World) :
    (world_copy G).width = G.width
  ∧ (world_copy G).height = G.height
  ∧ (∀ y < G.height, ∀ x < G.width,
      (cellAt (world_copy G) x y).alive = (cellAt G x y).alive)
  ∧ world_compare (world_copy G) G = false
  ∧ (∀ w1 w2 : World, ∀ n m : Nat,
      world_compare { w1 with iteration := n } { w2 with iteration := m }
        = world_compare w1 w2) := by
  refine ⟨copy_width G, copy_height G, ?_, compare_copy_left G, ?_⟩
  · intro y hy x hx
    exact copy_alive G x y hx hy
  · intro w1 w2 n m
    rfl

/-- Witness for C8 on the horizontal blinker at cell `(2,2)`. -/
theorem C8_clone_equals_witness :
    (cellAt (world_copy blinkerH) 2 2).alive = (cellAt blinkerH 2 2).alive
  ∧ world_compare (world_copy blinkerH) blinkerH = false :=
  ⟨(C8_clone_equals blinkerH).2.2.1 2 (by decide) 2 (by decide),
   (C8_clone_equals blinkerH).2.2.2.1⟩

/-- **C9**: `world_advance` never changes the grid's width or height, and
the stored coordinates of every cell are untouched — only alive flags
and the iteration counter may change. -/
theorem C9_advance_preserves_frame (w : World) :
    (world_advance w).1.width = w.width
  ∧ (world_advance w).1.height = w.height
  ∧ ∀ x y : Nat, ((cellAt (world_advance w).1 x y).x = (cellAt w x y).x ∧
                  (cellAt (world_advance w).1 x y).y = (cellAt w x y).y) := by
  refine ⟨?_, ?_, ?_⟩
  · exact (sweep_frame w (fun wa x y => cell_update wa (cellAt wa x y))).1
  · exact (sweep_frame w (fun wa x y => cell_update wa (cellAt wa x y))).2.1
  · intro x y
    exact (sweep_frame w (fun wa x y => cell_update wa (cellAt wa x y))).2.2.2 x y

/-- **C10**: every cell stores its own coordinates; the invariant that
the cell held at row `y`, column `x` stores `(x, y)` is established by
`world_init` and preserved by `world_copy` (unconditionally — the copy is
rebuilt on a fresh `world_init`), by `world_randomize` and by
`world_advance`; and on a grid satisfying the invariant the neighbour
count used by `cell_update` for the cell at `(x, y)` is taken around the
stored coordinates, i.e. around the cell's actual position `(x, y)`. -/
theorem C10_coords_invariant :
    (∀ W H : Nat, coordsOK (world_init W H))
  ∧ (∀ w : World, coordsOK (world_copy w))
  ∧ (∀ w : World, ∀ rnd : Nat → Nat, coordsOK w → coordsOK (world_randomize w rnd))
  ∧ (∀ w : World, coordsOK w → coordsOK (world_advance w).1)
  ∧ (∀ w : World, coordsOK w → w.width < 2147483648 → w.height < 2147483648 →
      ∀ y < w.height, ∀ x < w.width,
        cell_update w (cellAt w x y) =
          if (cellAt w x y).alive then
            decide (1 < neighborCountSpec w x y ∧ neighborCountSpec w x y < 4)
          else decide (neighborCountSpec w x y = 3)) := by
  refine ⟨?_, ?_, ?_, ?_, ?_⟩
  · intro W H y hy x hx
    rw [cellAt_init, if_pos ⟨hx, hy⟩]
    exact ⟨rfl, rfl⟩
  · intro w y hy x hx
    rw [copy_height] at hy
    rw [copy_width] at hx
    have hc : ((cellAt (world_copy w) x y).x
          = (cellAt (world_init w.width w.height) x y).x)
        ∧ ((cellAt (world_copy w) x y).y
          = (cellAt (world_init w.width w.height) x y).y) :=
      (sweep_frame (world_init w.width w.height) (fun _ x y => (cellAt w x y).alive)).2.2.2 x y
    have hi := cellAt_init w.width w.height x y
    rw [if_pos ⟨hx, hy⟩] at hi
    rw [hi] at hc
    exact hc
  · intro w rnd hco y hy x hx
    have hH : (world_randomize w rnd).height = w.height :=
      (sweep_frame w (fun _ x y => rnd (y * w.width + x) % 2 == 1)).2.1
    have hW : (world_randomize w rnd).width = w.width :=
      (sweep_frame w (fun _ x y => rnd (y * w.width + x) % 2 == 1)).1
    rw [hH] at hy
    rw [hW] at hx
    have hc : ((cellAt (world_randomize w rnd) x y).x = (cellAt w x y).x)
        ∧ ((cellAt (world_randomize w rnd) x y).y = (cellAt w x y).y) :=
      (sweep_frame w (fun _ x y => rnd (y * w.width + x) % 2 == 1)).2.2.2 x y
    obtain ⟨h1, h2⟩ := hco y hy x hx
    exact ⟨hc.1.trans h1, hc.2.trans h2⟩
  · intro w hco y hy x hx
    have hH : (world_advance w).1.height = w.height :=
      (sweep_frame w (fun wa x y => cell_update wa (cellAt wa x y))).2.1
    have hW : (world_advance w).1.width = w.width :=
      (sweep_frame w (fun wa x y => cell_update wa (cellAt wa x y))).1
    rw [hH] at hy
    rw [hW] at hx
    have hc : ((cellAt (world_advance w).1 x y).x = (cellAt w x y).x)
        ∧ ((cellAt (world_advance w).1 x y).y = (cellAt w x y).y) :=
      (sweep_frame w (fun wa x y => cell_update wa (cellAt wa x y))).2.2.2 x y
    obtain ⟨h1, h2⟩ := hco y hy x hx
    exact ⟨hc.1.trans h1, hc.2.trans h2⟩
  · intro w hco hW hH y hy x hx
    obtain ⟨h1, h2⟩ := hco y hy x hx
    rw [cell_update_eq_count w (cellAt w x y) hW hH (by rw [h1]; exact hx)
        (by rw [h2]; exact hy), h1, h2]

/-- Witness for C10: the invariant after randomizing and advancing a
3-by-3 grid, and the rule evaluated around the actual position `(1,1)`
there. -/
theorem C10_coords_invariant_witness :
    coordsOK (world_randomize (world_init 3 3) (fun k => k))
  ∧ coordsOK (world_advance (world_init 3 3)).1
  ∧ cell_update (world_init 3 3) (cellAt (world_init 3 3) 1 1) =
      (if (cellAt (world_init 3 3) 1 1).alive then
        decide (1 < neighborCountSpec (world_init 3 3) 1 1 ∧
                neighborCountSpec (world_init 3 3) 1 1 < 4)
      else decide (neighborCountSpec (world_init 3 3) 1 1 = 3)) :=
  ⟨C10_coords_invariant.2.2.1 (world_init 3 3) (fun k => k) (C10_coords_invariant.1 3 3),
   C10_coords_invariant.2.2.2.1 (world_init 3 3) (C10_coords_invariant.1 3 3),
   C10_coords_invariant.2.2.2.2 (world_init 3 3) (C10_coords_invariant.1 3 3)
     (by decide) (by decide) 1 (by decide) 1 (by decide)⟩
